import Mathlib

/-!
Shallow embedding of the seat-reservation system in `src/main.py`
(class `CassandraReservationSystem`).

The `reservations` table is a list of rows keyed by the composite key
`(movie_name, seat)`.  The store's `INSERT ... IF NOT EXISTS` and
`DELETE ... IF user_id = ?` primitives are modelled by `condInsertRes`
and `condDeleteRes`.  Every `session.execute` of a conditional write
inside a retry loop is driven by an outcome oracle (`CallBehavior`):
it may complete normally (the applied/not-applied answer then follows
from the table state), raise the `CAS operation result is unknown`
ambiguous-outcome exception (with the write either committed on the
replicas or not), or raise a non-ambiguous error.

`make_reservation` embeds src/main.py lines 205-250, `update_reservation`
lines 252-333 and `check_cluster_health` lines 780-810.  Timestamps and
user ids are modelled as naturals; sleep durations are recorded in units
of 0.1 second, so the recorded value `attempt + 1` stands for the
`time.sleep(0.1 * (attempt + 1))` call of the source.
-/

/-- Row of the `reservations` table: columns `(movie_name, user_id, seat,
creation, modification)` as in the prepared insert statement
(src/main.py line 56). -/
structure Reservation where
  movie_name : String
  user_id : Nat
  seat : String
  creation : Nat
  modification : Nat
deriving DecidableEq

/-- The `reservations` table contents. -/
abbrev Table := List Reservation

/-- Row matches the composite primary key `(movie_name, seat)`
(the `WHERE movie_name = ? AND seat = ?` clause, src/main.py line 59). -/
def resKeyMatches (movie seat : String) (r : Reservation) : Bool :=
  r.movie_name == movie && r.seat == seat

/-- Quorum read of the row with key `(movie, seat)`. -/
def lookupRes (t : Table) (movie seat : String) : Option Reservation :=
  t.find? (resKeyMatches movie seat)

/-- Store primitive `INSERT ... IF NOT EXISTS` on the reservations table:
applied (and the row added) exactly when the key is absent. -/
def condInsertRes (t : Table) (r : Reservation) : Bool × Table :=
  match lookupRes t r.movie_name r.seat with
  | some _ => (false, t)
  | none => (true, r :: t)

/-- Store primitive `DELETE ... WHERE movie_name = ? AND seat = ?
IF user_id = ?`: applied (and every row of that key removed) exactly when
the row exists and carries the expected user id. -/
def condDeleteRes (t : Table) (movie seat : String) (uid : Nat) : Bool × Table :=
  match lookupRes t movie seat with
  | some r =>
    if r.user_id = uid then
      (true, t.filter (fun x => !(resKeyMatches movie seat x)))
    else (false, t)
  | none => (false, t)

/-- Outcome of one `session.execute` store call, as seen by the client:
`normal` completes and reports applied/not-applied from the table state;
`ambiguousCommit` and `ambiguousNoCommit` raise the
`CAS operation result is unknown` exception while the write did or did
not commit on the replicas; `fail` raises any other store error. -/
inductive CallBehavior where
  | normal
  | ambiguousCommit
  | ambiguousNoCommit
  | fail
deriving DecidableEq

/-- Control-flow outcome of the body of a `for attempt in range(max_retries)`
retry loop: an explicit `return` with a boolean, the loop running out of
iterations, or an exception escaping the loop. -/
inductive InnerRes where
  | ret (b : Bool)
  | fellThrough
  | exn
deriving DecidableEq

/-- Python value returned to the caller: `True`, `False`, or `None`
(the implicit return of a function body that falls off its end). -/
inductive PyVal where
  | pyTrue
  | pyFalse
  | pyNone
deriving DecidableEq

/-- What the caller of a Python method observes: a returned value or a
propagated exception. -/
inductive PyRet where
  | val (v : PyVal)
  | exn
deriving DecidableEq

/-- The `max_retries = 5` constant of src/main.py lines 220 and 289. -/
def max_retries : Nat := 5

/-- The attempt indices of `for attempt in range(max_retries)`. -/
def attemptRange : List Nat := List.range max_retries

/-- The `movie_exists` method (src/main.py lines 91-100): a quorum read of
the movies table; its own `except` clause turns any store error into
`False`. -/
def movie_exists (movies : List String) (movie : String) (b : CallBehavior) : Bool :=
  match b with
  | .normal => movies.contains movie
  | _ => false

/-- The `user_exists` method (src/main.py lines 127-136): a quorum read of
the users table; its own `except` clause turns any store error into
`False`. -/
def user_exists (users : List Nat) (uid : Nat) (b : CallBehavior) : Bool :=
  match b with
  | .normal => users.contains uid
  | _ => false

/-- Output of the booking retry loop: control-flow result, table state,
number of conditional inserts issued, and the sleeps performed (in units
of 0.1 s). -/
structure LoopOut where
  res : InnerRes
  table : Table
  inserts : Nat
  sleeps : List Nat
deriving DecidableEq

/-- Accounting wrapper for one more iteration after an ambiguous outcome:
a `time.sleep(0.1 * (attempt + 1))` followed by `continue`. -/
def withRetry (o : LoopOut) (attempt : Nat) : LoopOut :=
  ⟨o.res, o.table, o.inserts + 1, (attempt + 1) :: o.sleeps⟩

/-- The retry loop of `make_reservation` (src/main.py lines 220-245).
Each list element is the attempt index; `insB attempt` is the behaviour of
the conditional insert issued on that attempt.  A normal completion
returns `was_applied`; the ambiguous exception with
`attempt < max_retries - 1` sleeps and continues, otherwise the exception
is re-raised. -/
def bookLoop (insB : Nat → CallBehavior) (r : Reservation) :
    List Nat → Table → LoopOut
  | [], t => ⟨.fellThrough, t, 0, []⟩
  | attempt :: restA, t =>
    match insB attempt with
    | .normal =>
      ⟨.ret (condInsertRes t r).1, (condInsertRes t r).2, 1, []⟩
    | .ambiguousCommit =>
      if attempt < max_retries - 1 then
        withRetry (bookLoop insB r restA (condInsertRes t r).2) attempt
      else ⟨.exn, (condInsertRes t r).2, 1, []⟩
    | .ambiguousNoCommit =>
      if attempt < max_retries - 1 then
        withRetry (bookLoop insB r restA t) attempt
      else ⟨.exn, t, 1, []⟩
    | .fail => ⟨.exn, t, 1, []⟩

/-- What `make_reservation` hands back for each way the retry loop ends:
`return True` / `return False` inside the loop; the `return False` after
the loop (line 245); and the outer `except Exception: pass` (lines
247-248), after which control falls off the function, returning `None`. -/
def bookRetOf : InnerRes → PyRet
  | .ret true => .val .pyTrue
  | .ret false => .val .pyFalse
  | .fellThrough => .val .pyFalse
  | .exn => .val .pyNone

/-- Result of `make_reservation`: Python return value, table state, number
of conditional inserts issued, sleeps performed. -/
structure BookOut where
  ret : PyRet
  table : Table
  inserts : Nat
  sleeps : List Nat
deriving DecidableEq

/-- The `make_reservation` method (src/main.py lines 205-250).
`mB`, `uB` are the behaviours of the movie/user existence reads, `insB`
the behaviours of the conditional inserts by attempt index. -/
def make_reservation (movies : List String) (users : List Nat)
    (movie_name : String) (user_id : Nat) (seat_name : String) (now : Nat)
    (mB uB : CallBehavior) (insB : Nat → CallBehavior) (t : Table) : BookOut :=
  if movie_exists movies movie_name mB = false then ⟨.val .pyFalse, t, 0, []⟩
  else if user_exists users user_id uB = false then ⟨.val .pyFalse, t, 0, []⟩
  else
    let o := bookLoop insB ⟨movie_name, user_id, seat_name, now, now⟩ attemptRange t
    ⟨bookRetOf o.res, o.table, o.inserts, o.sleeps⟩

/-- A conditional write issued against the reservations table, in issue
order; used to observe which statements `update_reservation` executes. -/
inductive StoreOp where
  | insertOp (movie : String) (uid : Nat) (seat : String) (creation modification : Nat)
  | deleteOp (movie : String) (seat : String) (uid : Nat)
deriving DecidableEq

/-- Output of the transfer retry loop: control-flow result, table state,
conditional writes issued in order, sleeps performed. -/
structure TLoopOut where
  res : InnerRes
  table : Table
  ops : List StoreOp
  sleeps : List Nat
deriving DecidableEq

/-- Accounting wrapper for one more transfer-loop iteration after an
ambiguous outcome: records the writes already issued in this iteration
and the sleep. -/
def withRetryT (o : TLoopOut) (pre : List StoreOp) (attempt : Nat) : TLoopOut :=
  ⟨o.res, o.table, pre ++ o.ops, (attempt + 1) :: o.sleeps⟩

/-- The retry loop of `update_reservation` (src/main.py lines 289-329).
Each iteration issues, in order: the claim insert of the new seat, then on
applied the release delete of the old seat, then on a not-applied release
the compensating delete of the new seat (whose result is discarded).
`opB k` is the behaviour of the k-th conditional write issued by the loop.
An ambiguous exception on any of the three writes with
`attempt < max_retries - 1` sleeps and re-runs the whole iteration from
the claim insert; any other escape re-raises. -/
def transferLoop (opB : Nat → CallBehavior) (movie : String) (uid : Nat)
    (curSeat newSeat : String) (origCreation now : Nat) :
    List Nat → Nat → Table → TLoopOut
  | [], _, t => ⟨.fellThrough, t, [], []⟩
  | attempt :: restA, k, t =>
    let claimRow : Reservation := ⟨movie, uid, newSeat, origCreation, now⟩
    let claimOp : StoreOp := .insertOp movie uid newSeat origCreation now
    let relOp : StoreOp := .deleteOp movie curSeat uid
    let compOp : StoreOp := .deleteOp movie newSeat uid
    match opB k with
    | .fail => ⟨.exn, t, [claimOp], []⟩
    | .ambiguousCommit =>
      if attempt < max_retries - 1 then
        withRetryT (transferLoop opB movie uid curSeat newSeat origCreation now
          restA (k + 1) (condInsertRes t claimRow).2) [claimOp] attempt
      else ⟨.exn, (condInsertRes t claimRow).2, [claimOp], []⟩
    | .ambiguousNoCommit =>
      if attempt < max_retries - 1 then
        withRetryT (transferLoop opB movie uid curSeat newSeat origCreation now
          restA (k + 1) t) [claimOp] attempt
      else ⟨.exn, t, [claimOp], []⟩
    | .normal =>
      let p₁ := condInsertRes t claimRow
      if p₁.1 = false then ⟨.ret false, p₁.2, [claimOp], []⟩
      else
        match opB (k + 1) with
        | .fail => ⟨.exn, p₁.2, [claimOp, relOp], []⟩
        | .ambiguousCommit =>
          if attempt < max_retries - 1 then
            withRetryT (transferLoop opB movie uid curSeat newSeat origCreation now
              restA (k + 2) (condDeleteRes p₁.2 movie curSeat uid).2)
              [claimOp, relOp] attempt
          else ⟨.exn, (condDeleteRes p₁.2 movie curSeat uid).2, [claimOp, relOp], []⟩
        | .ambiguousNoCommit =>
          if attempt < max_retries - 1 then
            withRetryT (transferLoop opB movie uid curSeat newSeat origCreation now
              restA (k + 2) p₁.2) [claimOp, relOp] attempt
          else ⟨.exn, p₁.2, [claimOp, relOp], []⟩
        | .normal =>
          let p₂ := condDeleteRes p₁.2 movie curSeat uid
          if p₂.1 = true then ⟨.ret true, p₂.2, [claimOp, relOp], []⟩
          else
            match opB (k + 2) with
            | .fail => ⟨.exn, p₂.2, [claimOp, relOp, compOp], []⟩
            | .ambiguousCommit =>
              if attempt < max_retries - 1 then
                withRetryT (transferLoop opB movie uid curSeat newSeat origCreation now
                  restA (k + 3) (condDeleteRes p₂.2 movie newSeat uid).2)
                  [claimOp, relOp, compOp] attempt
              else ⟨.exn, (condDeleteRes p₂.2 movie newSeat uid).2,
                [claimOp, relOp, compOp], []⟩
            | .ambiguousNoCommit =>
              if attempt < max_retries - 1 then
                withRetryT (transferLoop opB movie uid curSeat newSeat origCreation now
                  restA (k + 3) p₂.2) [claimOp, relOp, compOp] attempt
              else ⟨.exn, p₂.2, [claimOp, relOp, compOp], []⟩
            | .normal =>
              ⟨.ret false, (condDeleteRes p₂.2 movie newSeat uid).2,
                [claimOp, relOp, compOp], []⟩

/-- What `update_reservation` hands back for each way the retry loop ends:
`return True` / `return False` inside the loop; the loop running out of
iterations falls past the `try` body off the function end (returning
`None`); an escaped exception hits `except Exception: return False`
(src/main.py lines 331-333). -/
def transferRetOf : InnerRes → PyRet
  | .ret true => .val .pyTrue
  | .ret false => .val .pyFalse
  | .fellThrough => .val .pyNone
  | .exn => .val .pyFalse

/-- Result of `update_reservation`: Python return value, table state,
conditional writes issued by the retry loop, sleeps performed. -/
structure TransferOut where
  ret : PyRet
  table : Table
  ops : List StoreOp
  sleeps : List Nat
deriving DecidableEq

/-- The `update_reservation` method (src/main.py lines 252-333).
`mB`, `uB` are the behaviours of the movie/user existence reads, `rB` of
the current-reservation read (any exception there is caught by the outer
handler, returning `False`), and `opB` of the loop's conditional writes. -/
def update_reservation (movies : List String) (users : List Nat)
    (movie_name current_seat_name new_seat_name : String) (user_id : Nat)
    (now : Nat) (mB uB rB : CallBehavior) (opB : Nat → CallBehavior)
    (t : Table) : TransferOut :=
  if movie_exists movies movie_name mB = false then ⟨.val .pyFalse, t, [], []⟩
  else if user_exists users user_id uB = false then ⟨.val .pyFalse, t, [], []⟩
  else
    match rB with
    | .normal =>
      match lookupRes t movie_name current_seat_name with
      | none => ⟨.val .pyFalse, t, [], []⟩
      | some existing =>
        if existing.user_id ≠ user_id then ⟨.val .pyFalse, t, [], []⟩
        else if new_seat_name = current_seat_name then ⟨.val .pyTrue, t, [], []⟩
        else
          let o := transferLoop opB movie_name user_id current_seat_name
            new_seat_name existing.creation now attemptRange 0 t
          ⟨transferRetOf o.res, o.table, o.ops, o.sleeps⟩
    | _ => ⟨.val .pyFalse, t, [], []⟩

/-- Row of the store's `system.peers` topology view, as selected by
`SELECT peer, rpc_address FROM system.peers` (src/main.py line 790). -/
structure Peer where
  peer : String
  rpc_address : String
deriving DecidableEq

/-- The `check_cluster_health` method (src/main.py lines 780-810): reads
the local node descriptor and the peer descriptors; `total_nodes` is the
peer count plus one for the local node; healthy iff `total_nodes >= 2`;
any exception from either read is caught and turned into `False`. -/
def check_cluster_health (localRes : Except String (List String))
    (peersRes : Except String (List Peer)) : Bool :=
  match localRes with
  | .error _ => false
  | .ok _ =>
    match peersRes with
    | .error _ => false
    | .ok active_peers =>
      let total_nodes := active_peers.length + 1
      if total_nodes ≥ 2 then true else false

/-- One client-visible operation of the reservation core, together with
the store-call behaviours its execution will meet. -/
inductive SysOp where
  | book (movie : String) (uid : Nat) (seat : String) (now : Nat)
      (mB uB : CallBehavior) (insB : Nat → CallBehavior)
  | transfer (movie curSeat newSeat : String) (uid : Nat) (now : Nat)
      (mB uB rB : CallBehavior) (opB : Nat → CallBehavior)

/-- Effect of one operation on the reservations table. -/
def applyOp (movies : List String) (users : List Nat) (t : Table) :
    SysOp → Table
  | .book movie uid seat now mB uB insB =>
    (make_reservation movies users movie uid seat now mB uB insB t).table
  | .transfer movie curSeat newSeat uid now mB uB rB opB =>
    (update_reservation movies users movie curSeat newSeat uid now mB uB rB opB t).table

/-- Table reached by running a sequence of operations. -/
def runOps (movies : List String) (users : List Nat) (t : Table) :
    List SysOp → Table
  | [] => t
  | op :: ops => runOps movies users (applyOp movies users t op) ops

/-- Arguments of one `make_reservation` call in a contention scenario on a
fixed `(movie, seat)` key. -/
structure BookCall where
  uid : Nat
  now : Nat
  mB : CallBehavior
  uB : CallBehavior
  insB : Nat → CallBehavior

/-- Results of a sequence of `make_reservation` calls on the same
`(movie, seat)` key, each seeing the table the previous call left. -/
def runBooks (movies : List String) (users : List Nat)
    (movie seat : String) (t : Table) : List BookCall → List PyRet
  | [] => []
  | c :: cs =>
    let o := make_reservation movies users movie c.uid seat c.now c.mB c.uB c.insB t
    o.ret :: runBooks movies users movie seat o.table cs

/-- Two rows collide on the composite primary key. -/
def sameKey (a b : Reservation) : Prop :=
  a.movie_name = b.movie_name ∧ a.seat = b.seat

/-- The table has pairwise distinct composite keys. -/
def distinctKeys (t : Table) : Prop :=
  t.Pairwise fun a b => ¬ sameKey a b

/-- At most one reservation row exists for any `(movie, seat)` key. -/
def atMostOnePerKey (t : Table) : Prop :=
  ∀ m s, t.countP (resKeyMatches m s) ≤ 1

lemma resKeyMatches_iff (m s : String) (x : Reservation) :
    resKeyMatches m s x = true ↔ x.movie_name = m ∧ x.seat = s := by
  simp [resKeyMatches]

lemma distinctKeys_condInsert (t : Table) (r : Reservation)
    (h : distinctKeys t) : distinctKeys (condInsertRes t r).2 := by
  rcases hl : lookupRes t r.movie_name r.seat with _ | x
  · simp only [condInsertRes, hl]
    refine List.pairwise_cons.mpr ⟨?_, h⟩
    intro b hb hk
    refine (List.find?_eq_none.mp hl) b hb ?_
    rw [resKeyMatches_iff]
    exact ⟨hk.1.symm, hk.2.symm⟩
  · simpa only [condInsertRes, hl] using h

lemma distinctKeys_condDelete (t : Table) (m s : String) (uid : Nat)
    (h : distinctKeys t) : distinctKeys (condDeleteRes t m s uid).2 := by
  rcases hl : lookupRes t m s with _ | r
  · simpa only [condDeleteRes, hl] using h
  · by_cases hu : r.user_id = uid
    · simp only [condDeleteRes, hl, hu, if_true]
      exact List.Pairwise.sublist (List.filter_sublist t) h
    · simpa only [condDeleteRes, hl, hu, if_false] using h

lemma distinctKeys_bookLoop (insB : Nat → CallBehavior) (r : Reservation) :
    ∀ (as : List Nat) (t : Table), distinctKeys t →
      distinctKeys (bookLoop insB r as t).table := by
  intro as
  induction as with
  | nil => intro t h; exact h
  | cons a restA ih =>
    intro t h
    rcases hb : insB a with _ | _ | _ | _ <;> simp only [bookLoop, hb]
    · exact distinctKeys_condInsert t r h
    · split
      · exact ih _ (distinctKeys_condInsert t r h)
      · exact distinctKeys_condInsert t r h
    · split
      · exact ih _ h
      · exact h
    · exact h

lemma distinctKeys_transferLoop (opB : Nat → CallBehavior) (movie : String)
    (uid : Nat) (curSeat newSeat : String) (origCreation now : Nat) :
    ∀ (as : List Nat) (k : Nat) (t : Table), distinctKeys t →
      distinctKeys (transferLoop opB movie uid curSeat newSeat origCreation now
        as k t).table := by
  intro as
  induction as with
  | nil => intro k t h; exact h
  | cons a restA ih =>
    intro k t h
    have h₁ : distinctKeys (condInsertRes t
        ⟨movie, uid, newSeat, origCreation, now⟩).2 :=
      distinctKeys_condInsert t _ h
    have h₂ : distinctKeys (condDeleteRes (condInsertRes t
        ⟨movie, uid, newSeat, origCreation, now⟩).2 movie curSeat uid).2 :=
      distinctKeys_condDelete _ _ _ _ h₁
    have h₃ : distinctKeys (condDeleteRes (condDeleteRes (condInsertRes t
        ⟨movie, uid, newSeat, origCreation, now⟩).2 movie curSeat uid).2
        movie newSeat uid).2 :=
      distinctKeys_condDelete _ _ _ _ h₂
    rcases hb : opB k with _ | _ | _ | _ <;> simp only [transferLoop, hb]
    · -- normal claim insert
      split
      · exact h₁
      · rcases hb2 : opB (k + 1) with _ | _ | _ | _ <;> simp only [hb2]
        · -- normal release delete
          split
          · exact h₂
          · rcases hb3 : opB (k + 2) with _ | _ | _ | _ <;> simp only [hb3]
            · exact h₃
            · split
              · exact ih _ _ h₃
              · exact h₃
            · split
              · exact ih _ _ h₂
              · exact h₂
            · exact h₂
        · split
          · exact ih _ _ h₂
          · exact h₂
        · split
          · exact ih _ _ h₁
          · exact h₁
        · exact h₁
    · split
      · exact ih _ _ h₁
      · exact h₁
    · split
      · exact ih _ _ h
      · exact h
    · exact h

lemma distinctKeys_make_reservation (movies : List String) (users : List Nat)
    (movie : String) (uid : Nat) (seat : String) (now : Nat)
    (mB uB : CallBehavior) (insB : Nat → CallBehavior) (t : Table)
    (h : distinctKeys t) :
    distinctKeys (make_reservation movies users movie uid seat now mB uB insB t).table := by
  unfold make_reservation
  split
  · exact h
  · split
    · exact h
    · exact distinctKeys_bookLoop insB _ attemptRange t h

lemma distinctKeys_update_reservation (movies : List String) (users : List Nat)
    (movie curSeat newSeat : String) (uid : Nat) (now : Nat)
    (mB uB rB : CallBehavior) (opB : Nat → CallBehavior) (t : Table)
    (h : distinctKeys t) :
    distinctKeys (update_reservation movies users movie curSeat newSeat uid now
      mB uB rB opB t).table := by
  unfold update_reservation
  split
  · exact h
  · split
    · exact h
    · cases rB with
      | normal =>
        rcases hl : lookupRes t movie curSeat with _ | existing
        · simp only [hl]; exact h
        · simp only [hl]
          split
          · exact h
          · split
            · exact h
            · exact distinctKeys_transferLoop opB movie uid curSeat newSeat
                existing.creation now attemptRange 0 t h
      | ambiguousCommit => exact h
      | ambiguousNoCommit => exact h
      | fail => exact h

lemma distinctKeys_runOps (movies : List String) (users : List Nat) :
    ∀ (ops : List SysOp) (t : Table), distinctKeys t →
      distinctKeys (runOps movies users t ops) := by
  intro ops
  induction ops with
  | nil => intro t h; exact h
  | cons op rest ih =>
    intro t h
    cases op with
    | book movie uid seat now mB uB insB =>
      exact ih _ (distinctKeys_make_reservation movies users movie uid seat now
        mB uB insB t h)
    | transfer movie curSeat newSeat uid now mB uB rB opB =>
      exact ih _ (distinctKeys_update_reservation movies users movie curSeat
        newSeat uid now mB uB rB opB t h)

lemma atMostOnePerKey_of_distinctKeys :
    ∀ t : Table, distinctKeys t → atMostOnePerKey t := by
  intro t
  induction t with
  | nil => intro _ m s; simp [List.countP_nil]
  | cons a l ih =>
    intro h m s
    rcases List.pairwise_cons.mp h with ⟨ha, hl⟩
    rw [List.countP_cons]
    by_cases hpa : resKeyMatches m s a = true
    · have hz : l.countP (resKeyMatches m s) = 0 := by
        rw [List.countP_eq_zero]
        intro x hx hpx
        rcases (resKeyMatches_iff m s a).mp hpa with ⟨ham, has⟩
        rcases (resKeyMatches_iff m s x).mp hpx with ⟨hxm, hxs⟩
        exact ha x hx ⟨ham.trans hxm.symm, has.trans hxs.symm⟩
      simp [hz, hpa]
    · simpa [hpa] using ih hl m s

lemma bookLoop_occupied (insB : Nat → CallBehavior) (r : Reservation)
    (m s : String) (x : Reservation) (hm : r.movie_name = m) (hs : r.seat = s) :
    ∀ (as : List Nat) (t : Table), lookupRes t m s = some x →
      (bookLoop insB r as t).table = t ∧ (bookLoop insB r as t).res ≠ .ret true := by
  intro as
  induction as with
  | nil => intro t _; exact ⟨rfl, by simp [bookLoop]⟩
  | cons a restA ih =>
    intro t hocc
    have hci : condInsertRes t r = (false, t) := by
      unfold condInsertRes; rw [hm, hs, hocc]
    rcases hb : insB a with _ | _ | _ | _ <;> simp only [bookLoop, hb, hci]
    · simp
    · split
      · exact ih t hocc
      · simp
    · split
      · exact ih t hocc
      · simp
    · simp

lemma bookLoop_success (insB : Nat → CallBehavior) (r : Reservation) :
    ∀ (as : List Nat) (t : Table), (bookLoop insB r as t).res = .ret true →
      lookupRes (bookLoop insB r as t).table r.movie_name r.seat = some r := by
  intro as
  induction as with
  | nil => intro t h; simp [bookLoop] at h
  | cons a restA ih =>
    intro t h
    rcases hb : insB a with _ | _ | _ | _ <;> simp only [bookLoop, hb] at h ⊢
    · rcases hl : lookupRes t r.movie_name r.seat with _ | x
      · have hci : condInsertRes t r = (true, r :: t) := by
          unfold condInsertRes; rw [hl]
        simp only [hci]
        show lookupRes (r :: t) r.movie_name r.seat = some r
        unfold lookupRes
        exact List.find?_cons_of_pos t (by simp [resKeyMatches])
      · have hci : condInsertRes t r = (false, t) := by
          unfold condInsertRes; rw [hl]
        rw [hci] at h
        simp at h
    · by_cases hlt : a < max_retries - 1
      · rw [if_pos hlt] at h ⊢
        exact ih _ h
      · rw [if_neg hlt] at h
        simp at h
    · by_cases hlt : a < max_retries - 1
      · rw [if_pos hlt] at h ⊢
        exact ih _ h
      · rw [if_neg hlt] at h
        simp at h
    · simp at h

lemma bookRetOf_eq_true_iff (res : InnerRes) :
    bookRetOf res = .val .pyTrue ↔ res = .ret true := by
  cases res with
  | ret b => cases b <;> simp [bookRetOf]
  | fellThrough => simp [bookRetOf]
  | exn => simp [bookRetOf]

lemma bookRetOf_cases (res : InnerRes) :
    bookRetOf res = .val .pyTrue ∨ bookRetOf res = .val .pyFalse ∨
      bookRetOf res = .val .pyNone := by
  cases res with
  | ret b => cases b <;> simp [bookRetOf]
  | fellThrough => simp [bookRetOf]
  | exn => simp [bookRetOf]

lemma make_reservation_occupied (movies : List String) (users : List Nat)
    (movie : String) (uid : Nat) (seat : String) (now : Nat)
    (mB uB : CallBehavior) (insB : Nat → CallBehavior) (t : Table)
    (x : Reservation) (hocc : lookupRes t movie seat = some x) :
    (make_reservation movies users movie uid seat now mB uB insB t).table = t ∧
    (make_reservation movies users movie uid seat now mB uB insB t).ret ≠ .val .pyTrue := by
  unfold make_reservation
  split
  · exact ⟨rfl, by simp⟩
  · split
    · exact ⟨rfl, by simp⟩
    · rcases bookLoop_occupied insB ⟨movie, uid, seat, now, now⟩ movie seat x
        rfl rfl attemptRange t hocc with ⟨h1, h2⟩
      refine ⟨h1, fun hc => h2 ((bookRetOf_eq_true_iff _).mp hc)⟩

lemma make_reservation_success (movies : List String) (users : List Nat)
    (movie : String) (uid : Nat) (seat : String) (now : Nat)
    (mB uB : CallBehavior) (insB : Nat → CallBehavior) (t : Table)
    (h : (make_reservation movies users movie uid seat now mB uB insB t).ret
      = .val .pyTrue) :
    lookupRes (make_reservation movies users movie uid seat now mB uB insB t).table
      movie seat = some ⟨movie, uid, seat, now, now⟩ := by
  by_cases hmv : movie_exists movies movie mB = false
  · exfalso
    unfold make_reservation at h
    rw [if_pos hmv] at h
    simp at h
  · by_cases hus : user_exists users uid uB = false
    · exfalso
      unfold make_reservation at h
      rw [if_neg hmv, if_pos hus] at h
      simp at h
    · unfold make_reservation at h ⊢
      rw [if_neg hmv, if_neg hus] at h ⊢
      have h' : (bookLoop insB ⟨movie, uid, seat, now, now⟩ attemptRange t).res
          = .ret true := (bookRetOf_eq_true_iff _).mp h
      exact bookLoop_success insB ⟨movie, uid, seat, now, now⟩ attemptRange t h'

lemma make_reservation_ret_cases (movies : List String) (users : List Nat)
    (movie : String) (uid : Nat) (seat : String) (now : Nat)
    (mB uB : CallBehavior) (insB : Nat → CallBehavior) (t : Table) :
    (make_reservation movies users movie uid seat now mB uB insB t).ret = .val .pyTrue ∨
    (make_reservation movies users movie uid seat now mB uB insB t).ret = .val .pyFalse ∨
    (make_reservation movies users movie uid seat now mB uB insB t).ret = .val .pyNone := by
  unfold make_reservation
  split
  · simp
  · split
    · simp
    · exact bookRetOf_cases _

lemma runBooks_occupied (movies : List String) (users : List Nat)
    (movie seat : String) :
    ∀ (calls : List BookCall) (t : Table) (x : Reservation),
      lookupRes t movie seat = some x →
      (runBooks movies users movie seat t calls).countP
        (fun r => decide (r = PyRet.val .pyTrue)) = 0 := by
  intro calls
  induction calls with
  | nil => intro t x _; simp [runBooks]
  | cons c cs ih =>
    intro t x hocc
    obtain ⟨h1, h2⟩ := make_reservation_occupied movies users movie c.uid seat
      c.now c.mB c.uB c.insB t x hocc
    simp only [runBooks, List.countP_cons, h1]
    simp [h2, ih t x hocc]

lemma runBooks_free (movies : List String) (users : List Nat)
    (movie seat : String) :
    ∀ (calls : List BookCall) (t : Table), lookupRes t movie seat = none →
      (runBooks movies users movie seat t calls).countP
        (fun r => decide (r = PyRet.val .pyTrue)) ≤ 1 := by
  intro calls
  induction calls with
  | nil => intro t _; simp [runBooks]
  | cons c cs ih =>
    intro t hfree
    simp only [runBooks, List.countP_cons]
    by_cases hr : (make_reservation movies users movie c.uid seat c.now c.mB
        c.uB c.insB t).ret = .val .pyTrue
    · have hocc := make_reservation_success movies users movie c.uid seat c.now
        c.mB c.uB c.insB t hr
      have h0 := runBooks_occupied movies users movie seat cs _ _ hocc
      simp [hr, h0]
    · rcases hlook : lookupRes (make_reservation movies users movie c.uid seat
          c.now c.mB c.uB c.insB t).table movie seat with _ | x
      · have := ih _ hlook
        simp [hr]
        omega
      · have h0 := runBooks_occupied movies users movie seat cs _ _ hlook
        simp [hr, h0]

lemma runBooks_ret_cases (movies : List String) (users : List Nat)
    (movie seat : String) :
    ∀ (calls : List BookCall) (t : Table) (r : PyRet),
      r ∈ runBooks movies users movie seat t calls →
      r = .val .pyTrue ∨ r = .val .pyFalse ∨ r = .val .pyNone := by
  intro calls
  induction calls with
  | nil => intro t r hr; simp [runBooks] at hr
  | cons c cs ih =>
    intro t r hr
    simp only [runBooks, List.mem_cons] at hr
    rcases hr with rfl | hr
    · exact make_reservation_ret_cases movies users movie c.uid seat c.now
        c.mB c.uB c.insB t
    · exact ih _ r hr

/-- C1: for every sequence of `Book` (`make_reservation`) and `Transfer`
(`update_reservation`) operations starting from an empty reservations
table — with arbitrary store-call behaviours, including ambiguous
outcomes whose write did or did not commit — the table reached has at
most one reservation row per `(movie, seat)` key (and since the sequence
is universally quantified, this holds at every prefix, i.e. at any time);
and among any sequence of `Book` calls targeting the same `(movie, seat)`
key while that key is unoccupied, at most one returns `True`, every other
call returning a non-success value (`False` or `None`, never an
exception). -/
theorem spec_c1_per_key_uniqueness (movies : List String) (users : List Nat) :
    (∀ ops : List SysOp, atMostOnePerKey (runOps movies users [] ops)) ∧
    (∀ (movie seat : String) (t : Table) (calls : List BookCall),
      lookupRes t movie seat = none →
        (runBooks movies users movie seat t calls).countP
          (fun r => decide (r = PyRet.val .pyTrue)) ≤ 1 ∧
        ∀ r ∈ runBooks movies users movie seat t calls,
          r = .val .pyTrue ∨ r = .val .pyFalse ∨ r = .val .pyNone) := by
  constructor
  · intro ops
    exact atMostOnePerKey_of_distinctKeys _
      (distinctKeys_runOps movies users ops [] List.Pairwise.nil)
  · intro movie seat t calls hfree
    exact ⟨runBooks_free movies users movie seat calls t hfree,
      fun r hr => runBooks_ret_cases movies users movie seat calls t r hr⟩

/-- Witness for C1: two identical `Book` calls on a free key, run in
sequence; the success count is at most one. -/
theorem spec_c1_witness :
    (runBooks ["m"] [0] "m" "A" []
      [⟨0, 1, .normal, .normal, fun _ => .normal⟩,
       ⟨0, 2, .normal, .normal, fun _ => .normal⟩]).countP
        (fun r => decide (r = PyRet.val .pyTrue)) ≤ 1 ∧
    ∀ r ∈ runBooks ["m"] [0] "m" "A" []
      [⟨0, 1, .normal, .normal, fun _ => .normal⟩,
       ⟨0, 2, .normal, .normal, fun _ => .normal⟩],
      r = .val .pyTrue ∨ r = .val .pyFalse ∨ r = .val .pyNone :=
  (spec_c1_per_key_uniqueness ["m"] [0]).2 "m" "A" []
    [⟨0, 1, .normal, .normal, fun _ => .normal⟩,
     ⟨0, 2, .normal, .normal, fun _ => .normal⟩] rfl

lemma attemptRange_eq : attemptRange = [0, 1, 2, 3, 4] := rfl

lemma condInsertRes_of_free (t : Table) (r : Reservation)
    (h : lookupRes t r.movie_name r.seat = none) :
    condInsertRes t r = (true, r :: t) := by
  unfold condInsertRes; rw [h]

lemma condInsertRes_of_occupied (t : Table) (r : Reservation) (x : Reservation)
    (h : lookupRes t r.movie_name r.seat = some x) :
    condInsertRes t r = (false, t) := by
  unfold condInsertRes; rw [h]

lemma bookRetOf_ne_exn (res : InnerRes) : bookRetOf res ≠ .exn := by
  cases res with
  | ret b => cases b <;> simp [bookRetOf]
  | fellThrough => simp [bookRetOf]
  | exn => simp [bookRetOf]

lemma transferRetOf_ne_exn (res : InnerRes) : transferRetOf res ≠ .exn := by
  cases res with
  | ret b => cases b <;> simp [transferRetOf]
  | fellThrough => simp [transferRetOf]
  | exn => simp [transferRetOf]

/-- C2: `make_reservation` returns `False` without issuing any insert when
the movie read misses or the user read misses; otherwise it issues the
conditional insert for `(movie, seat)` and, when that insert completes
normally, returns `True` with the row written exactly when it is applied,
and returns `False` after a single attempt (no retry, no sleep, table
unchanged) when it reports not-applied. -/
theorem spec_c2_book_fail_fast (movies : List String) (users : List Nat)
    (movie : String) (uid : Nat) (seat : String) (now : Nat)
    (insB : Nat → CallBehavior) (t : Table) :
    (movies.contains movie = false →
      make_reservation movies users movie uid seat now .normal .normal insB t
        = ⟨.val .pyFalse, t, 0, []⟩) ∧
    (movies.contains movie = true → users.contains uid = false →
      make_reservation movies users movie uid seat now .normal .normal insB t
        = ⟨.val .pyFalse, t, 0, []⟩) ∧
    (movies.contains movie = true → users.contains uid = true →
      insB 0 = .normal → lookupRes t movie seat = none →
      make_reservation movies users movie uid seat now .normal .normal insB t
        = ⟨.val .pyTrue, ⟨movie, uid, seat, now, now⟩ :: t, 1, []⟩) ∧
    (movies.contains movie = true → users.contains uid = true →
      insB 0 = .normal → ∀ x, lookupRes t movie seat = some x →
      make_reservation movies users movie uid seat now .normal .normal insB t
        = ⟨.val .pyFalse, t, 1, []⟩) := by
  refine ⟨?_, ?_, ?_, ?_⟩
  · intro hm
    have hm' : ¬ movie ∈ movies := by simpa using hm
    unfold make_reservation
    simp [movie_exists, hm']
  · intro hm hu
    have hm' : movie ∈ movies := by simpa using hm
    have hu' : ¬ uid ∈ users := by simpa using hu
    unfold make_reservation
    simp [movie_exists, user_exists, hm', hu']
  · intro hm hu h0 hfree
    have hm' : movie ∈ movies := by simpa using hm
    have hu' : uid ∈ users := by simpa using hu
    have hci := condInsertRes_of_free t ⟨movie, uid, seat, now, now⟩ hfree
    unfold make_reservation
    simp [movie_exists, user_exists, hm', hu', attemptRange_eq, bookLoop, h0,
      hci, bookRetOf]
  · intro hm hu h0 x hocc
    have hm' : movie ∈ movies := by simpa using hm
    have hu' : uid ∈ users := by simpa using hu
    have hci := condInsertRes_of_occupied t ⟨movie, uid, seat, now, now⟩ x hocc
    unfold make_reservation
    simp [movie_exists, user_exists, hm', hu', attemptRange_eq, bookLoop, h0,
      hci, bookRetOf]

/-- Witness for C2: a fresh booking on an empty table with a present movie
and user succeeds with exactly one insert and no sleep. -/
theorem spec_c2_witness :
    make_reservation ["m"] [7] "m" 7 "A" 3 .normal .normal (fun _ => .normal) []
      = ⟨.val .pyTrue, [⟨"m", 7, "A", 3, 3⟩], 1, []⟩ :=
  (spec_c2_book_fail_fast ["m"] [7] "m" 7 "A" 3 (fun _ => .normal) []).2.2.1
    rfl rfl rfl rfl

/-- C9: `check_cluster_health` computes `total_nodes` as the number of
peer descriptors read from `system.peers` plus one for the local node and
returns `True` exactly when `total_nodes >= 2`, independent of the
contents of the local-node read. -/
theorem spec_c9_health_threshold (localRows : List String) (peers : List Peer) :
    check_cluster_health (.ok localRows) (.ok peers) = true ↔
      peers.length + 1 ≥ 2 := by
  by_cases h : peers.length + 1 ≥ 2 <;> simp [check_cluster_health, h]

/-- C10: `check_cluster_health` never propagates an error: when the local
descriptor read or the peer descriptor read raises, the exception is
caught and `False` is returned. -/
theorem spec_c10_health_catches_errors (msg msg2 : String)
    (peersRes : Except String (List Peer)) (localRows : List String) :
    check_cluster_health (.error msg) peersRes = false ∧
    check_cluster_health (.ok localRows) (.error msg2) = false :=
  ⟨rfl, rfl⟩

/-- Counterexample to C4: a non-ambiguous store error during the
conditional insert is not propagated.  `make_reservation` returns `None`
(the inner loop re-raises, but the outer `except Exception: pass` at
src/main.py lines 247-248 swallows the error and the function falls off
its end), and `update_reservation` returns `False` (outer
`except Exception: return False` at lines 331-333) — in both cases the
error is converted into a return value, contradicting the claim. -/
theorem spec_c4_counterexample :
    (make_reservation ["m"] [7] "m" 7 "A" 3 .normal .normal (fun _ => .fail) []
      = ⟨.val .pyNone, [], 1, []⟩) ∧
    (update_reservation ["m"] [7] "m" "A" "B" 7 20 .normal .normal .normal
      (fun _ => .fail) [⟨"m", 7, "A", 10, 10⟩]
      = ⟨.val .pyFalse, [⟨"m", 7, "A", 10, 10⟩],
          [.insertOp "m" 7 "B" 10 20], []⟩) := by decide

/-- C4 amended: the inner retry loops re-raise non-ambiguous store errors,
but each operation's outermost exception handler catches every exception:
`make_reservation` never propagates any store error (it returns `None` on
the error path) and `update_reservation` never propagates any store error
(it returns `False` on the error path). -/
theorem spec_c4_amended (movies : List String) (users : List Nat)
    (movie curSeat newSeat seat : String) (uid : Nat) (now : Nat)
    (mB uB rB : CallBehavior) (insB opB : Nat → CallBehavior) (t : Table) :
    (make_reservation movies users movie uid seat now mB uB insB t).ret ≠ .exn ∧
    (update_reservation movies users movie curSeat newSeat uid now
      mB uB rB opB t).ret ≠ .exn := by
  constructor
  · unfold make_reservation
    split
    · simp
    · split
      · simp
      · exact bookRetOf_ne_exn _
  · unfold update_reservation
    split
    · simp
    · split
      · simp
      · cases rB with
        | normal =>
          rcases hl : lookupRes t movie curSeat with _ | existing <;>
            simp only [hl]
          · simp
          · split
            · simp
            · split
              · simp
              · exact transferRetOf_ne_exn _
        | ambiguousCommit => simp
        | ambiguousNoCommit => simp
        | fail => simp

/-- Counterexample to C3: with the new seat initially free, the claim
insert applies on attempt 0 and the release delete then raises the
ambiguous-outcome exception; the loop re-runs from the claim step, so the
third conditional write issued is the claim insert again — not the
release delete the claim predicts — and, since the claim's own row now
occupies the new seat, the transfer returns `False`. -/
theorem spec_c3_counterexample :
    update_reservation ["m"] [7] "m" "A" "B" 7 20 .normal .normal .normal
      (fun k => if k = 1 then .ambiguousNoCommit else .normal)
      [⟨"m", 7, "A", 10, 10⟩]
      = ⟨.val .pyFalse, [⟨"m", 7, "B", 10, 20⟩, ⟨"m", 7, "A", 10, 10⟩],
          [.insertOp "m" 7 "B" 10 20, .deleteOp "m" "A" 7,
           .insertOp "m" 7 "B" 10 20], [1]⟩ := by decide

lemma transferLoop_ops_take_one (opB : Nat → CallBehavior) (movie : String)
    (uid : Nat) (curSeat newSeat : String) (origCreation now : Nat)
    (a : Nat) (restA : List Nat) (k : Nat) (t : Table) :
    (transferLoop opB movie uid curSeat newSeat origCreation now
      (a :: restA) k t).ops.take 1
      = [.insertOp movie uid newSeat origCreation now] := by
  rcases hb : opB k with _ | _ | _ | _ <;> simp only [transferLoop, hb, withRetryT]
  · split
    · simp
    · rcases hb2 : opB (k + 1) with _ | _ | _ | _ <;> simp only [hb2]
      · split
        · simp
        · rcases hb3 : opB (k + 2) with _ | _ | _ | _ <;> simp only [hb3]
          · simp
          · split <;> simp
          · split <;> simp
          · simp
      · split <;> simp
      · split <;> simp
      · simp
  · split <;> simp
  · split <;> simp
  · simp

lemma update_reservation_to_loop (movies : List String) (users : List Nat)
    (movie curSeat newSeat : String) (uid : Nat) (now : Nat)
    (opB : Nat → CallBehavior) (t : Table) (ex : Reservation)
    (hm : movies.contains movie = true) (hu : users.contains uid = true)
    (hcur : lookupRes t movie curSeat = some ex) (hown : ex.user_id = uid)
    (hne : ¬ newSeat = curSeat) :
    update_reservation movies users movie curSeat newSeat uid now
      .normal .normal .normal opB t
      = ⟨transferRetOf (transferLoop opB movie uid curSeat newSeat
            ex.creation now attemptRange 0 t).res,
         (transferLoop opB movie uid curSeat newSeat ex.creation now
            attemptRange 0 t).table,
         (transferLoop opB movie uid curSeat newSeat ex.creation now
            attemptRange 0 t).ops,
         (transferLoop opB movie uid curSeat newSeat ex.creation now
            attemptRange 0 t).sleeps⟩ := by
  have hmv : movie_exists movies movie .normal = true := hm
  have huv : user_exists users uid .normal = true := hu
  unfold update_reservation
  simp only [hmv, huv, hcur, hown, hne]
  simp

lemma transferLoop_step_claim_ok_release_amb (opB : Nat → CallBehavior)
    (movie : String) (uid : Nat) (curSeat newSeat : String)
    (origCreation now : Nat) (a : Nat) (restA : List Nat) (k : Nat) (t : Table)
    (hk : opB k = .normal) (hk1 : opB (k + 1) = .ambiguousNoCommit)
    (happ : (condInsertRes t ⟨movie, uid, newSeat, origCreation, now⟩).1 = true)
    (hlt : a < max_retries - 1) :
    transferLoop opB movie uid curSeat newSeat origCreation now (a :: restA) k t
      = withRetryT (transferLoop opB movie uid curSeat newSeat origCreation now
          restA (k + 2)
          (condInsertRes t ⟨movie, uid, newSeat, origCreation, now⟩).2)
          [.insertOp movie uid newSeat origCreation now,
           .deleteOp movie curSeat uid] a := by
  rw [transferLoop, hk]
  simp only [happ, hk1, if_pos hlt]
  simp

/-- C3 amended: the retry loop of `update_reservation` wraps the claim
insert and the release delete together: an ambiguous outcome on the
release step does not retry the release alone but re-runs the whole
iteration from the claim step, so the next conditional write issued after
the ambiguous release is the claim insert again, after one linear-backoff
sleep. -/
theorem spec_c3_amended (movies : List String) (users : List Nat)
    (movie curSeat newSeat : String) (uid : Nat) (now : Nat)
    (opB : Nat → CallBehavior) (t : Table) (ex : Reservation)
    (hm : movies.contains movie = true) (hu : users.contains uid = true)
    (hcur : lookupRes t movie curSeat = some ex) (hown : ex.user_id = uid)
    (hne : ¬ newSeat = curSeat) (hfree : lookupRes t movie newSeat = none)
    (h0 : opB 0 = .normal) (h1 : opB 1 = .ambiguousNoCommit) :
    ((update_reservation movies users movie curSeat newSeat uid now
        .normal .normal .normal opB t).ops).take 3
      = [.insertOp movie uid newSeat ex.creation now,
         .deleteOp movie curSeat uid,
         .insertOp movie uid newSeat ex.creation now] ∧
    ((update_reservation movies users movie curSeat newSeat uid now
        .normal .normal .normal opB t).sleeps).take 1 = [1] := by
  have hci := condInsertRes_of_free t ⟨movie, uid, newSeat, ex.creation, now⟩ hfree
  have happ : (condInsertRes t ⟨movie, uid, newSeat, ex.creation, now⟩).1 = true := by
    rw [hci]
  have hhead := transferLoop_ops_take_one opB movie uid curSeat newSeat
    ex.creation now 1 [2, 3, 4] 2
    (⟨movie, uid, newSeat, ex.creation, now⟩ :: t)
  rw [update_reservation_to_loop movies users movie curSeat newSeat uid now
    opB t ex hm hu hcur hown hne, attemptRange_eq]
  rw [transferLoop_step_claim_ok_release_amb opB movie uid curSeat newSeat
    ex.creation now 0 [1, 2, 3, 4] 0 t h0 h1 happ (by decide)]
  simp [withRetryT, hci, hhead]

/-- Witness for C3 amended: the concrete ambiguous-release scenario, with
the claim insert visibly re-issued as the third write. -/
theorem spec_c3_amended_witness :
    ((update_reservation ["m"] [7] "m" "A" "B" 7 20 .normal .normal .normal
        (fun k => if k = 1 then .ambiguousNoCommit else .normal)
        [⟨"m", 7, "A", 10, 10⟩]).ops).take 3
      = [.insertOp "m" 7 "B" 10 20, .deleteOp "m" "A" 7,
         .insertOp "m" 7 "B" 10 20] ∧
    ((update_reservation ["m"] [7] "m" "A" "B" 7 20 .normal .normal .normal
        (fun k => if k = 1 then .ambiguousNoCommit else .normal)
        [⟨"m", 7, "A", 10, 10⟩]).sleeps).take 1 = [1] :=
  spec_c3_amended ["m"] [7] "m" "A" "B" 7 20
    (fun k => if k = 1 then .ambiguousNoCommit else .normal)
    [⟨"m", 7, "A", 10, 10⟩] ⟨"m", 7, "A", 10, 10⟩
    rfl rfl rfl rfl (by decide) rfl rfl rfl

lemma lookupRes_cons_of_neg (r : Reservation) (t : Table) (m s : String)
    (h : resKeyMatches m s r = false) :
    lookupRes (r :: t) m s = lookupRes t m s := by
  unfold lookupRes
  exact List.find?_cons_of_neg t (by simp [h])

lemma lookupRes_cons_self (r : Reservation) (t : Table) :
    lookupRes (r :: t) r.movie_name r.seat = some r := by
  unfold lookupRes
  exact List.find?_cons_of_pos t (by simp [resKeyMatches])

lemma lookupRes_filter_out (t : Table) (m s : String) :
    lookupRes (t.filter (fun y => !(resKeyMatches m s y))) m s = none := by
  unfold lookupRes
  rw [List.find?_eq_none]
  intro x hx
  rcases List.mem_filter.mp hx with ⟨_, hpx⟩
  have hf : resKeyMatches m s x = false := by
    revert hpx
    cases resKeyMatches m s x <;> simp
  simp [hf]

lemma filter_not_key_of_free (t : Table) (m s : String)
    (h : lookupRes t m s = none) :
    t.filter (fun y => !(resKeyMatches m s y)) = t := by
  apply List.filter_eq_self.mpr
  intro a ha
  have hna := List.find?_eq_none.mp h a ha
  have hf : resKeyMatches m s a = false := by
    revert hna
    cases resKeyMatches m s a <;> simp
  simp [hf]

lemma condDeleteRes_applied (t : Table) (m s : String) (uid : Nat)
    (x : Reservation) (h : lookupRes t m s = some x) (hu : x.user_id = uid) :
    condDeleteRes t m s uid
      = (true, t.filter (fun y => !(resKeyMatches m s y))) := by
  unfold condDeleteRes
  rw [h]
  simp [hu]

lemma transferLoop_step_claim_taken (opB : Nat → CallBehavior) (movie : String)
    (uid : Nat) (curSeat newSeat : String) (origCreation now : Nat)
    (a : Nat) (restA : List Nat) (k : Nat) (t : Table)
    (hk : opB k = .normal)
    (hnap : (condInsertRes t ⟨movie, uid, newSeat, origCreation, now⟩).1 = false) :
    transferLoop opB movie uid curSeat newSeat origCreation now (a :: restA) k t
      = ⟨.ret false, (condInsertRes t ⟨movie, uid, newSeat, origCreation, now⟩).2,
         [.insertOp movie uid newSeat origCreation now], []⟩ := by
  rw [transferLoop, hk]
  simp only [hnap]
  simp

lemma transferLoop_step_happy (opB : Nat → CallBehavior) (movie : String)
    (uid : Nat) (curSeat newSeat : String) (origCreation now : Nat)
    (a : Nat) (restA : List Nat) (k : Nat) (t : Table)
    (hk : opB k = .normal) (hk1 : opB (k + 1) = .normal)
    (happ : (condInsertRes t ⟨movie, uid, newSeat, origCreation, now⟩).1 = true)
    (hrel : (condDeleteRes
        (condInsertRes t ⟨movie, uid, newSeat, origCreation, now⟩).2
        movie curSeat uid).1 = true) :
    transferLoop opB movie uid curSeat newSeat origCreation now (a :: restA) k t
      = ⟨.ret true,
         (condDeleteRes
           (condInsertRes t ⟨movie, uid, newSeat, origCreation, now⟩).2
           movie curSeat uid).2,
         [.insertOp movie uid newSeat origCreation now,
          .deleteOp movie curSeat uid], []⟩ := by
  rw [transferLoop, hk]
  simp only [happ, hk1, hrel]
  simp

lemma update_reservation_happy (movies : List String) (users : List Nat)
    (movie curSeat newSeat : String) (uid : Nat) (now : Nat) (t : Table)
    (ex : Reservation)
    (hm : movies.contains movie = true) (hu : users.contains uid = true)
    (hcur : lookupRes t movie curSeat = some ex) (hown : ex.user_id = uid)
    (hne : ¬ newSeat = curSeat) (hfree : lookupRes t movie newSeat = none) :
    update_reservation movies users movie curSeat newSeat uid now
      .normal .normal .normal (fun _ => .normal) t
      = ⟨.val .pyTrue,
         ⟨movie, uid, newSeat, ex.creation, now⟩ ::
           t.filter (fun y => !(resKeyMatches movie curSeat y)),
         [.insertOp movie uid newSeat ex.creation now,
          .deleteOp movie curSeat uid], []⟩ := by
  have hci := condInsertRes_of_free t ⟨movie, uid, newSeat, ex.creation, now⟩ hfree
  have hkm : resKeyMatches movie curSeat
      ⟨movie, uid, newSeat, ex.creation, now⟩ = false := by
    simp [resKeyMatches, hne]
  have hlook : lookupRes (⟨movie, uid, newSeat, ex.creation, now⟩ :: t)
      movie curSeat = some ex := by
    rw [lookupRes_cons_of_neg _ t movie curSeat hkm, hcur]
  have hdel := condDeleteRes_applied
    (⟨movie, uid, newSeat, ex.creation, now⟩ :: t) movie curSeat uid ex hlook hown
  rw [update_reservation_to_loop movies users movie curSeat newSeat uid now
    _ t ex hm hu hcur hown hne, attemptRange_eq]
  rw [transferLoop_step_happy (fun _ => .normal) movie uid curSeat newSeat
    ex.creation now 0 [1, 2, 3, 4] 0 t rfl rfl (by rw [hci])
    (by simp only [hci]; rw [hdel])]
  simp only [hci, hdel]
  simp [transferRetOf, hkm]

/-- C5: a successful `update_reservation` of a user's reservation from
`curSeat` to a different free `newSeat` leaves at `(movie, newSeat)` a
reservation with the same user id and the same creation timestamp as the
original row at `(movie, curSeat)`; only the seat and the modification
timestamp (set to the transfer time) differ, and the old key is released. -/
theorem spec_c5_transfer_preserves_creation (movies : List String)
    (users : List Nat) (movie curSeat newSeat : String) (uid : Nat)
    (now : Nat) (t : Table) (ex : Reservation)
    (hm : movies.contains movie = true) (hu : users.contains uid = true)
    (hcur : lookupRes t movie curSeat = some ex) (hown : ex.user_id = uid)
    (hne : ¬ newSeat = curSeat) (hfree : lookupRes t movie newSeat = none) :
    (update_reservation movies users movie curSeat newSeat uid now
      .normal .normal .normal (fun _ => .normal) t).ret = .val .pyTrue ∧
    lookupRes (update_reservation movies users movie curSeat newSeat uid now
      .normal .normal .normal (fun _ => .normal) t).table movie newSeat
      = some ⟨movie, ex.user_id, newSeat, ex.creation, now⟩ ∧
    lookupRes (update_reservation movies users movie curSeat newSeat uid now
      .normal .normal .normal (fun _ => .normal) t).table movie curSeat
      = none := by
  have hkm : resKeyMatches movie curSeat
      ⟨movie, uid, newSeat, ex.creation, now⟩ = false := by
    simp [resKeyMatches, hne]
  rw [update_reservation_happy movies users movie curSeat newSeat uid now t ex
    hm hu hcur hown hne hfree]
  refine ⟨rfl, ?_, ?_⟩
  · rw [hown]
    exact lookupRes_cons_self ⟨movie, uid, newSeat, ex.creation, now⟩ _
  · rw [lookupRes_cons_of_neg _ _ movie curSeat hkm]
    exact lookupRes_filter_out t movie curSeat

/-- Witness for C5: transferring the only reservation from seat A to the
free seat B carries the user id and creation timestamp across. -/
theorem spec_c5_witness :
    (update_reservation ["m"] [7] "m" "A" "B" 7 20 .normal .normal .normal
      (fun _ => .normal) [⟨"m", 7, "A", 10, 10⟩]).ret = .val .pyTrue ∧
    lookupRes (update_reservation ["m"] [7] "m" "A" "B" 7 20 .normal .normal
      .normal (fun _ => .normal) [⟨"m", 7, "A", 10, 10⟩]).table "m" "B"
      = some ⟨"m", 7, "B", 10, 20⟩ ∧
    lookupRes (update_reservation ["m"] [7] "m" "A" "B" 7 20 .normal .normal
      .normal (fun _ => .normal) [⟨"m", 7, "A", 10, 10⟩]).table "m" "A"
      = none :=
  spec_c5_transfer_preserves_creation ["m"] [7] "m" "A" "B" 7 20
    [⟨"m", 7, "A", 10, 10⟩] ⟨"m", 7, "A", 10, 10⟩
    rfl rfl rfl rfl (by decide) rfl

/-- C6: when the claim insert of `update_reservation` finds the new seat
already occupied, the operation returns `False`, the table is unchanged,
the only conditional write issued is the claim insert itself (the old
seat's reservation is never read-modified, deleted, or touched and no
compensation delete is issued), and no sleep occurs. -/
theorem spec_c6_claim_fail_frame (movies : List String) (users : List Nat)
    (movie curSeat newSeat : String) (uid : Nat) (now : Nat) (t : Table)
    (ex other : Reservation) (opB : Nat → CallBehavior)
    (hm : movies.contains movie = true) (hu : users.contains uid = true)
    (hcur : lookupRes t movie curSeat = some ex) (hown : ex.user_id = uid)
    (hne : ¬ newSeat = curSeat) (hocc : lookupRes t movie newSeat = some other)
    (h0 : opB 0 = .normal) :
    update_reservation movies users movie curSeat newSeat uid now
      .normal .normal .normal opB t
      = ⟨.val .pyFalse, t, [.insertOp movie uid newSeat ex.creation now], []⟩ := by
  have hci := condInsertRes_of_occupied t
    ⟨movie, uid, newSeat, ex.creation, now⟩ other hocc
  rw [update_reservation_to_loop movies users movie curSeat newSeat uid now
    opB t ex hm hu hcur hown hne, attemptRange_eq]
  rw [transferLoop_step_claim_taken opB movie uid curSeat newSeat
    ex.creation now 0 [1, 2, 3, 4] 0 t h0 (by rw [hci])]
  simp only [hci]
  simp [transferRetOf]

/-- Witness for C6: transferring onto a seat held by another user fails
with the table unchanged and only the claim insert issued. -/
theorem spec_c6_witness :
    update_reservation ["m"] [7, 8] "m" "A" "B" 7 20 .normal .normal .normal
      (fun _ => .normal) [⟨"m", 7, "A", 10, 10⟩, ⟨"m", 8, "B", 11, 11⟩]
      = ⟨.val .pyFalse, [⟨"m", 7, "A", 10, 10⟩, ⟨"m", 8, "B", 11, 11⟩],
         [.insertOp "m" 7 "B" 10 20], []⟩ :=
  spec_c6_claim_fail_frame ["m"] [7, 8] "m" "A" "B" 7 20
    [⟨"m", 7, "A", 10, 10⟩, ⟨"m", 8, "B", 11, 11⟩]
    ⟨"m", 7, "A", 10, 10⟩ ⟨"m", 8, "B", 11, 11⟩ (fun _ => .normal)
    rfl rfl rfl rfl (by decide) rfl rfl

lemma make_reservation_fresh (movies : List String) (users : List Nat)
    (movie : String) (uid : Nat) (seat : String) (now : Nat) (t : Table)
    (hm : movies.contains movie = true) (hu : users.contains uid = true)
    (hfree : lookupRes t movie seat = none) :
    make_reservation movies users movie uid seat now .normal .normal
      (fun _ => .normal) t
      = ⟨.val .pyTrue, ⟨movie, uid, seat, now, now⟩ :: t, 1, []⟩ := by
  have hm' : movie ∈ movies := by simpa using hm
  have hu' : uid ∈ users := by simpa using hu
  have hci := condInsertRes_of_free t ⟨movie, uid, seat, now, now⟩ hfree
  unfold make_reservation
  simp [movie_exists, user_exists, hm', hu', attemptRange_eq, bookLoop, hci,
    bookRetOf]

/-- C7: booking a free seat X, transferring to a free seat Y, then
transferring back to X — each step succeeding with no interference —
leaves at `(movie, X)` a reservation equal to the one created by the
initial booking except for the modification timestamp: same user id, same
creation timestamp, only the modification field carries the later time. -/
theorem spec_c7_roundtrip (movies : List String) (users : List Nat)
    (m X Y : String) (uid : Nat) (now1 now2 now3 : Nat) (t : Table)
    (hm : movies.contains m = true) (hu : users.contains uid = true)
    (hX : lookupRes t m X = none) (hY : lookupRes t m Y = none)
    (hne : ¬ X = Y) :
    (make_reservation movies users m uid X now1 .normal .normal
        (fun _ => .normal) t)
      = ⟨.val .pyTrue, ⟨m, uid, X, now1, now1⟩ :: t, 1, []⟩ ∧
    (update_reservation movies users m X Y uid now2 .normal .normal .normal
        (fun _ => .normal) (⟨m, uid, X, now1, now1⟩ :: t)).ret = .val .pyTrue ∧
    (update_reservation movies users m X Y uid now2 .normal .normal .normal
        (fun _ => .normal) (⟨m, uid, X, now1, now1⟩ :: t)).table
      = ⟨m, uid, Y, now1, now2⟩ :: t ∧
    (update_reservation movies users m Y X uid now3 .normal .normal .normal
        (fun _ => .normal) (⟨m, uid, Y, now1, now2⟩ :: t)).ret = .val .pyTrue ∧
    (update_reservation movies users m Y X uid now3 .normal .normal .normal
        (fun _ => .normal) (⟨m, uid, Y, now1, now2⟩ :: t)).table
      = ⟨m, uid, X, now1, now3⟩ :: t := by
  have hne' : ¬ Y = X := fun hh => hne hh.symm
  have hkmX_rX : resKeyMatches m X (⟨m, uid, X, now1, now1⟩ : Reservation)
      = true := by simp [resKeyMatches]
  have hkmY_rX : resKeyMatches m Y (⟨m, uid, X, now1, now1⟩ : Reservation)
      = false := by simp [resKeyMatches, hne]
  have hkmY_rY : resKeyMatches m Y (⟨m, uid, Y, now1, now2⟩ : Reservation)
      = true := by simp [resKeyMatches]
  have hkmX_rY : resKeyMatches m X (⟨m, uid, Y, now1, now2⟩ : Reservation)
      = false := by simp [resKeyMatches, hne']
  have hfree₁ : lookupRes (⟨m, uid, X, now1, now1⟩ :: t) m Y = none := by
    rw [lookupRes_cons_of_neg _ t m Y hkmY_rX, hY]
  have hfree₂ : lookupRes (⟨m, uid, Y, now1, now2⟩ :: t) m X = none := by
    rw [lookupRes_cons_of_neg _ t m X hkmX_rY, hX]
  have ht₁ := update_reservation_happy movies users m X Y uid now2
    (⟨m, uid, X, now1, now1⟩ :: t) ⟨m, uid, X, now1, now1⟩
    hm hu (lookupRes_cons_self _ t) rfl hne' hfree₁
  have ht₂ := update_reservation_happy movies users m Y X uid now3
    (⟨m, uid, Y, now1, now2⟩ :: t) ⟨m, uid, Y, now1, now2⟩
    hm hu (lookupRes_cons_self _ t) rfl hne hfree₂
  have hfilter₁ : (⟨m, uid, X, now1, now1⟩ :: t).filter
      (fun y => !(resKeyMatches m X y)) = t := by
    simp [List.filter_cons, hkmX_rX, filter_not_key_of_free t m X hX]
  have hfilter₂ : (⟨m, uid, Y, now1, now2⟩ :: t).filter
      (fun y => !(resKeyMatches m Y y)) = t := by
    simp [List.filter_cons, hkmY_rY, filter_not_key_of_free t m Y hY]
  refine ⟨make_reservation_fresh movies users m uid X now1 t hm hu hX,
    ?_, ?_, ?_, ?_⟩
  · rw [ht₁]
  · rw [ht₁]
    simp [hfilter₁]
  · rw [ht₂]
  · rw [ht₂]
    simp [hfilter₂]

/-- Witness for C7: book seat A, move to B, move back to A on a singleton
system; the final row matches the booked row except for modification. -/
theorem spec_c7_witness :
    (make_reservation ["m"] [7] "m" 7 "A" 1 .normal .normal
        (fun _ => .normal) [])
      = ⟨.val .pyTrue, [⟨"m", 7, "A", 1, 1⟩], 1, []⟩ ∧
    (update_reservation ["m"] [7] "m" "A" "B" 7 2 .normal .normal .normal
        (fun _ => .normal) [⟨"m", 7, "A", 1, 1⟩]).ret = .val .pyTrue ∧
    (update_reservation ["m"] [7] "m" "A" "B" 7 2 .normal .normal .normal
        (fun _ => .normal) [⟨"m", 7, "A", 1, 1⟩]).table = [⟨"m", 7, "B", 1, 2⟩] ∧
    (update_reservation ["m"] [7] "m" "B" "A" 7 3 .normal .normal .normal
        (fun _ => .normal) [⟨"m", 7, "B", 1, 2⟩]).ret = .val .pyTrue ∧
    (update_reservation ["m"] [7] "m" "B" "A" 7 3 .normal .normal .normal
        (fun _ => .normal) [⟨"m", 7, "B", 1, 2⟩]).table = [⟨"m", 7, "A", 1, 3⟩] :=
  spec_c7_roundtrip ["m"] [7] "m" "A" "B" 7 1 2 3 [] rfl rfl rfl rfl (by decide)

lemma make_reservation_to_loop (movies : List String) (users : List Nat)
    (movie : String) (uid : Nat) (seat : String) (now : Nat)
    (insB : Nat → CallBehavior) (t : Table)
    (hm : movies.contains movie = true) (hu : users.contains uid = true) :
    make_reservation movies users movie uid seat now .normal .normal insB t
      = ⟨bookRetOf (bookLoop insB ⟨movie, uid, seat, now, now⟩ attemptRange t).res,
         (bookLoop insB ⟨movie, uid, seat, now, now⟩ attemptRange t).table,
         (bookLoop insB ⟨movie, uid, seat, now, now⟩ attemptRange t).inserts,
         (bookLoop insB ⟨movie, uid, seat, now, now⟩ attemptRange t).sleeps⟩ := by
  have hmv : movie_exists movies movie .normal = true := hm
  have huv : user_exists users uid .normal = true := hu
  unfold make_reservation
  simp only [hmv, huv]
  simp

lemma bookLoop_all_amb (insB : Nat → CallBehavior) (r : Reservation) (t : Table)
    (h : ∀ k, insB k = .ambiguousCommit ∨ insB k = .ambiguousNoCommit) :
    (bookLoop insB r attemptRange t).res = .exn ∧
    (bookLoop insB r attemptRange t).inserts = 5 ∧
    (bookLoop insB r attemptRange t).sleeps = [1, 2, 3, 4] := by
  rw [attemptRange_eq]
  rcases h 0 with h0 | h0 <;> rcases h 1 with h1 | h1 <;>
    rcases h 2 with h2 | h2 <;> rcases h 3 with h3 | h3 <;>
    rcases h 4 with h4 | h4 <;>
  simp [bookLoop, h0, h1, h2, h3, h4, withRetry, max_retries]

lemma bookLoop_inserts_le (insB : Nat → CallBehavior) (r : Reservation) :
    ∀ (as : List Nat) (t : Table),
      (bookLoop insB r as t).inserts ≤ as.length := by
  intro as
  induction as with
  | nil => intro t; simp [bookLoop]
  | cons a restA ih =>
    intro t
    rcases hb : insB a with _ | _ | _ | _ <;> simp only [bookLoop, hb]
    · simp
    · split
      · simpa [withRetry] using Nat.succ_le_succ (ih _)
      · simp
    · split
      · simpa [withRetry] using Nat.succ_le_succ (ih _)
      · simp
    · simp

lemma make_reservation_inserts_le (movies : List String) (users : List Nat)
    (movie : String) (uid : Nat) (seat : String) (now : Nat)
    (mB uB : CallBehavior) (insB : Nat → CallBehavior) (t : Table) :
    (make_reservation movies users movie uid seat now mB uB insB t).inserts ≤ 5 := by
  unfold make_reservation
  split
  · simp
  · split
    · simp
    · simpa [attemptRange_eq] using
        bookLoop_inserts_le insB ⟨movie, uid, seat, now, now⟩ attemptRange t

/-- C8: when every conditional insert of `make_reservation` ends in the
ambiguous outcome, the same insert is retried up to 5 attempts total with
a sleep of `0.1 * attemptIndex` seconds between attempts (recorded here as
`[1, 2, 3, 4]` tenths of a second), after which the operation returns the
non-success value `None` rather than reporting success; a normal or
failing first attempt triggers no retry and no sleep; and the insert is
never issued more than 5 times. -/
theorem spec_c8_ambiguous_retry (movies : List String) (users : List Nat)
    (movie : String) (uid : Nat) (seat : String) (now : Nat)
    (insB : Nat → CallBehavior) (t : Table)
    (hm : movies.contains movie = true) (hu : users.contains uid = true) :
    ((∀ k, insB k = .ambiguousCommit ∨ insB k = .ambiguousNoCommit) →
      (make_reservation movies users movie uid seat now .normal .normal insB t).ret
        = .val .pyNone ∧
      (make_reservation movies users movie uid seat now .normal .normal insB t).inserts
        = 5 ∧
      (make_reservation movies users movie uid seat now .normal .normal insB t).sleeps
        = [1, 2, 3, 4]) ∧
    (insB 0 = .normal →
      (make_reservation movies users movie uid seat now .normal .normal insB t).inserts
        = 1 ∧
      (make_reservation movies users movie uid seat now .normal .normal insB t).sleeps
        = []) ∧
    (insB 0 = .fail →
      (make_reservation movies users movie uid seat now .normal .normal insB t).ret
        = .val .pyNone ∧
      (make_reservation movies users movie uid seat now .normal .normal insB t).inserts
        = 1 ∧
      (make_reservation movies users movie uid seat now .normal .normal insB t).sleeps
        = []) ∧
    (make_reservation movies users movie uid seat now .normal .normal insB t).inserts
      ≤ 5 := by
  rw [make_reservation_to_loop movies users movie uid seat now insB t hm hu]
  refine ⟨?_, ?_, ?_, ?_⟩
  · intro hamb
    rcases bookLoop_all_amb insB ⟨movie, uid, seat, now, now⟩ t hamb with
      ⟨hres, hins, hsl⟩
    exact ⟨by rw [hres]; rfl, by rw [hins], by rw [hsl]⟩
  · intro h0
    have hstep : bookLoop insB ⟨movie, uid, seat, now, now⟩ attemptRange t
        = ⟨.ret (condInsertRes t ⟨movie, uid, seat, now, now⟩).1,
           (condInsertRes t ⟨movie, uid, seat, now, now⟩).2, 1, []⟩ := by
      rw [attemptRange_eq, bookLoop, h0]
    rw [hstep]
    exact ⟨rfl, rfl⟩
  · intro h0
    have hstep : bookLoop insB ⟨movie, uid, seat, now, now⟩ attemptRange t
        = ⟨.exn, t, 1, []⟩ := by
      rw [attemptRange_eq, bookLoop, h0]
    rw [hstep]
    exact ⟨rfl, rfl, rfl⟩
  · simpa [attemptRange_eq] using
      bookLoop_inserts_le insB ⟨movie, uid, seat, now, now⟩ attemptRange t

/-- Witness for C8: with every insert attempt ambiguous, booking performs
5 inserts, sleeps 0.1, 0.2, 0.3 and 0.4 seconds, and returns `None`. -/
theorem spec_c8_witness :
    (make_reservation ["m"] [7] "m" 7 "A" 3 .normal .normal
      (fun _ => .ambiguousNoCommit) []).ret = .val .pyNone ∧
    (make_reservation ["m"] [7] "m" 7 "A" 3 .normal .normal
      (fun _ => .ambiguousNoCommit) []).inserts = 5 ∧
    (make_reservation ["m"] [7] "m" 7 "A" 3 .normal .normal
      (fun _ => .ambiguousNoCommit) []).sleeps = [1, 2, 3, 4] :=
  (spec_c8_ambiguous_retry ["m"] [7] "m" 7 "A" 3
    (fun _ => .ambiguousNoCommit) [] rfl rfl).1 (fun _ => Or.inr rfl)

